import Mathlib

/-!
Shallow embedding of the `bt-customer-svc` repository: the JWT token codec
(`handlers/auth/auth.go`), the authentication middleware, the root customer
server handlers (`customer_server.go`), the customer response conversions
(`handlers/customer/customer_types.go`), and the address handlers (modelled
from the spec where the source file is absent).

Go strings are modelled as lists of characters, byte-slice secrets as lists
of naturals, `time.Time`/`time.Duration` as integers (seconds), and the
HMAC-SHA256 signature as an ideal MAC: a signature value is identified with
the triple (key, algorithm, signed claims), so two signatures agree exactly
when all inputs agree.
-/

namespace BtCustomerSvc

instance {ε α : Type} [DecidableEq ε] [DecidableEq α] : DecidableEq (Except ε α) :=
  fun x y =>
    match x, y with
    | .ok a, .ok b => if h : a = b then isTrue (by rw [h]) else isFalse (by simp [h])
    | .error a, .error b => if h : a = b then isTrue (by rw [h]) else isFalse (by simp [h])
    | .ok _, .error _ => isFalse (by simp)
    | .error _, .ok _ => isFalse (by simp)

/-- Model of a Go `string` as its list of characters. -/
abbrev GoStr := List Char

/-- Model of a Go `[]byte` (the signing secret) as a list of bytes. -/
abbrev Secret := List Nat

/-- The character for a decimal digit, as `strconv` produces it. -/
def digitChar (d : Nat) : Char := Char.ofNat (d + 48)

/-- Little-endian decimal digits of `n`, computed with explicit fuel so that
the kernel can evaluate it. `natDigitsRevAux fuel n` is correct when `n ≤ fuel`. -/
def natDigitsRevAux : Nat → Nat → List Nat
  | 0, _ => []
  | fuel + 1, n => if n = 0 then [] else (n % 10) :: natDigitsRevAux fuel (n / 10)

/-- Little-endian decimal digits of `n` (empty for `0`). -/
def natDigitsRev (n : Nat) : List Nat := natDigitsRevAux n n

/-- Value of a little-endian digit list. -/
def digitsVal (ds : List Nat) : Nat := ds.foldr (fun d a => d + 10 * a) 0

/-- Model of Go `strconv.FormatInt(int64(n), 10)` restricted to naturals. -/
def goFormatNat (n : Nat) : GoStr :=
  if n = 0 then ['0'] else (natDigitsRev n).reverse.map digitChar

/-- Model of Go `strconv.FormatInt(int64(i), 10)` (also `strconv.Itoa`). -/
def goFormatInt : Int → GoStr
  | .ofNat n => goFormatNat n
  | .negSucc m => '-' :: goFormatNat (m + 1)

/-- Parse an unsigned decimal numeral, as Go `strconv.Atoi` does after
consuming the optional sign: at least one character, all characters digits. -/
def goParseNat (cs : GoStr) : Option Nat :=
  if cs = [] then none
  else if cs.all Char.isDigit then
    some (cs.foldl (fun a c => a * 10 + (c.toNat - 48)) 0)
  else none

/-- Model of Go `strconv.Atoi`: optional `+`/`-` sign followed by digits.
Out-of-range clamping of `int64` is not modelled (subject ids are small). -/
def goAtoi (cs : GoStr) : Option Int :=
  match cs with
  | [] => none
  | c :: rest =>
    if c = '-' then (goParseNat rest).map (fun n => -(n : Int))
    else if c = '+' then (goParseNat rest).map (fun n => (n : Int))
    else (goParseNat (c :: rest)).map (fun n => (n : Int))

/-! JWT model (`handlers/auth/auth.go` on top of `github.com/golang-jwt/jwt/v5`).
The signature algorithm name carried in a token header. -/

inductive Alg
  | HS256
  | HS384
  | HS512
  | none
deriving DecidableEq

/-- The `jwt.RegisteredClaims` fields the repository uses: `Subject` (a Go
string, `""` when unset) and `ExpiresAt` (a nullable numeric date, modelled
in seconds). -/
structure RegisteredClaims where
  subject : GoStr
  expiresAt : Option Int
deriving DecidableEq

/-- Ideal-MAC model of an HMAC signature: the signature value is identified
with the key, the algorithm and the signed claims, so two signatures are
equal exactly when all three inputs are equal. -/
structure MacSig where
  key : Secret
  alg : Alg
  claims : RegisteredClaims
deriving DecidableEq

/-- A decoded, signed token (`jwt.Token`). -/
structure Token where
  alg : Alg
  claims : RegisteredClaims
  sig : MacSig
deriving DecidableEq

/-- Signing a claim set (`token.SignedString(secretKey)` for a token built by
`jwt.NewWithClaims`). -/
def signToken (alg : Alg) (claims : RegisteredClaims) (key : Secret) : Token :=
  ⟨alg, claims, ⟨key, alg, claims⟩⟩

/-- A JWT compact serialization: either the encoding of a decoded token or a
string that does not parse as a JWT at all (such as `"thisIsAnInvalidJWT"`). -/
inductive JWTString
  | encoded (t : Token)
  | malformed (s : GoStr)
deriving DecidableEq

/-- Error classes of `jwt.Parse` relevant here, mirroring golang-jwt v5:
`ErrTokenMalformed`, the invalid-signing-method error produced by
`WithValidMethods`, `ErrTokenSignatureInvalid` and `ErrTokenExpired`. -/
inductive JwtError
  | malformed
  | invalidSigningMethod
  | signatureInvalid
  | expired
deriving DecidableEq

/-- Model of `jwt.Parse(jwtString, keyfunc, jwt.WithValidMethods(methods))`
at verification time `now`, following the order of checks in golang-jwt v5:
decode, validate the signing method against the allow-list, verify the
signature with the key returned by the keyfunc, then validate the claims
(`ExpiresAt` must be strictly in the future when present; a `nil`
`ExpiresAt` is accepted because the claim is optional). -/
def jwtParse (s : JWTString) (key : Secret) (validMethods : List Alg)
    (now : Int) : Except JwtError Token :=
  match s with
  | .malformed _ => .error .malformed
  | .encoded t =>
    if t.alg ∉ validMethods then .error .invalidSigningMethod
    else if t.sig ≠ ⟨key, t.alg, t.claims⟩ then .error .signatureInvalid
    else
      match t.claims.expiresAt with
      | Option.none => .ok t
      | some exp => if now < exp then .ok t else .error .expired

/-- Validation failures of the request validator, by field, plus the JSON
decoding failure of a body that does not decode into the request struct. -/
inductive ValErr
  | requiredField (field : String)
  | badLength (field : String)
  | badFormat (field : String)
  | malformedJson
deriving DecidableEq

/-- The error values of the `handlers` package plus the error classes that
handlers propagate into response bodies (`err.Error()` of a jwt error, and
validation errors). -/
inductive ErrMsg
  | missingToken
  | missingSubject
  | nonIntegerSubject
  | missingCustomer
  | missingAddress
  | invalidCredentials
  | existingUser
  | unauthorizedAction
  | invalidRequestField
  | validationFailed (v : ValErr)
  | jwtInvalid (e : JwtError)
deriving DecidableEq

namespace Auth

/-- Embedding of `auth.GenerateJWT(secretKey, expiresAt, subject)`: signs
registered claims `{Subject: strconv.FormatInt(int64(subject), 10),
ExpiresAt: time.Now().Add(expiresAt)}` with HS256. `now` makes the ambient
`time.Now()` explicit; `expiresAt` is the duration argument. -/
def GenerateJWT (secretKey : Secret) (expiresAt : Int) (subject : Int)
    (now : Int) : JWTString :=
  .encoded (signToken .HS256 ⟨goFormatInt subject, some (now + expiresAt)⟩ secretKey)

/-- Embedding of `auth.GenerateJWTWithStringSubject`. -/
def GenerateJWTWithStringSubject (secretKey : Secret) (expiresAt : Int)
    (subject : GoStr) (now : Int) : JWTString :=
  .encoded (signToken .HS256 ⟨subject, some (now + expiresAt)⟩ secretKey)

/-- Embedding of `auth.GenerateJWTWithoutSubject`: the `Subject` field keeps
the Go zero value `""`. -/
def GenerateJWTWithoutSubject (secretKey : Secret) (expiresAt : Int)
    (now : Int) : JWTString :=
  .encoded (signToken .HS256 ⟨[], some (now + expiresAt)⟩ secretKey)

/-- Embedding of `auth.VerifyJWT(jwtString, secretKey)`: `jwt.Parse` with a
keyfunc returning `secretKey` and `jwt.WithValidMethods([]string{"HS256"})`. -/
def VerifyJWT (jwtString : JWTString) (secretKey : Secret) (now : Int) :
    Except JwtError Token :=
  jwtParse jwtString secretKey [.HS256] now

/-- Embedding of `auth.getIDFromToken`: `token.Claims.GetSubject()` (which
never fails for registered claims), the empty-subject check, then
`strconv.Atoi`. -/
def getIDFromToken (token : Token) : Except ErrMsg Int :=
  let subject := token.claims.subject
  if subject = [] then .error .missingSubject
  else
    match goAtoi subject with
    | Option.none => .error .nonIntegerSubject
    | some id => .ok id

end Auth

/-! Data model of the root package `bt_customer_svc` (`customer_server.go`)
and the store (`CustomerStore` is treated as an opaque store; the list model
implements lookup by id and by email, and a fresh id at creation). -/

/-- The `Customer` struct of `customer_server.go` (also `models.Customer`,
whose fields are identical). -/
structure Customer where
  Id : Int
  FirstName : GoStr
  LastName : GoStr
  PhoneNumber : GoStr
  Email : GoStr
  Password : GoStr
deriving DecidableEq

/-- The `GetCustomerResponse` struct of `customer_server.go` (no `Id` and no
`Password` field). -/
structure GetCustomerResponse where
  FirstName : GoStr
  LastName : GoStr
  PhoneNumber : GoStr
  Email : GoStr
deriving DecidableEq

/-- The `Address` record (`models.Address`): an id, the owning customer id and
the address payload (the tests use the `City` field). -/
structure Address where
  Id : Int
  CustomerId : Int
  City : GoStr
deriving DecidableEq

/-- One JSON value written to a response body by `json.NewEncoder(w).Encode`. -/
inductive BodyItem
  | errorBody (m : ErrMsg)
  | customerBody (g : GetCustomerResponse)
  | addressListBody (l : List Address)
deriving DecidableEq

/-- Model of an `http.ResponseWriter` with `net/http` semantics: `Header()`
returns a live header map, the first `WriteHeader` (explicit, or implicit on
the first body write) snapshots the status code and the header map, and
changing the header map afterwards does not affect what is sent. Handlers
only ever add the `Token` header, so header values are `JWTString`s. -/
structure ResponseWriter where
  headerMap : List (String × JWTString)
  sentStatus : Option Nat
  sentHeader : List (String × JWTString)
  body : List BodyItem
deriving DecidableEq

/-- A fresh response writer. -/
def ResponseWriter.init : ResponseWriter := ⟨[], Option.none, [], []⟩

/-- `w.WriteHeader(code)`: only the first call takes effect; it freezes the
status code and the current header map. -/
def ResponseWriter.writeHeader (w : ResponseWriter) (code : Nat) : ResponseWriter :=
  if w.sentStatus.isSome then w
  else ⟨w.headerMap, some code, w.headerMap, w.body⟩

/-- `w.Header().Add(key, value)`: mutates the live header map only. -/
def ResponseWriter.headerAdd (w : ResponseWriter) (key : String)
    (value : JWTString) : ResponseWriter :=
  ⟨w.headerMap ++ [(key, value)], w.sentStatus, w.sentHeader, w.body⟩

/-- `json.NewEncoder(w).Encode(v)`: a body write, which implies
`WriteHeader(200)` if no status has been written yet. -/
def ResponseWriter.encode (w : ResponseWriter) (item : BodyItem) : ResponseWriter :=
  let w := w.writeHeader 200
  ⟨w.headerMap, w.sentStatus, w.sentHeader, w.body ++ [item]⟩

/-- The response the client observes once the handler returns: if the handler
never wrote, `net/http` sends `200` with the header map as it stands. -/
def ResponseWriter.finalize (w : ResponseWriter) : ResponseWriter :=
  if w.sentStatus.isSome then w
  else ⟨w.headerMap, some 200, w.headerMap, w.body⟩

/-- Status code then JSON error body, the failure idiom of every handler:
`w.WriteHeader(code); json.NewEncoder(w).Encode(ErrorResponse{Message: ...})`. -/
def ResponseWriter.fail (w : ResponseWriter) (code : Nat) (m : ErrMsg) :
    ResponseWriter :=
  (w.writeHeader code).encode (.errorBody m)

/-- A decoded request body: the JSON shapes the handlers decode, or a body
that does not decode. A `jsonFields` body carries the optional fields of the
customer/login JSON objects; address requests carry an address object or an
address id. -/
structure JsonFields where
  firstName : Option GoStr
  lastName : Option GoStr
  phoneNumber : Option GoStr
  email : Option GoStr
  password : Option GoStr
deriving DecidableEq

inductive Body
  | malformed
  | jsonFields (j : JsonFields)
  | addressJson (a : Address)
  | addressId (id : Int)
deriving DecidableEq

/-- An inbound request: the `Token` header (`nil` when absent, else its first
value), the `Subject` header values (a list: `Header.Add` appends), and the
body. -/
structure Request where
  tokenHdr : Option JWTString
  subjectHdr : List GoStr
  body : Body
deriving DecidableEq

/-- One store-interface call, recorded in the order the handler makes them. -/
inductive StoreOp
  | getCustomerById (id : Int)
  | getCustomerByEmail (email : GoStr)
  | storeCustomer (c : Customer)
  | updateCustomer (c : Customer)
  | deleteCustomer (id : Int)
  | getAddressById (id : Int)
  | updateAddress (a : Address)
  | deleteAddress (id : Int)
deriving DecidableEq

/-- Whether a store call mutates the store. -/
def StoreOp.isWrite : StoreOp → Bool
  | .storeCustomer _ | .updateCustomer _ | .deleteCustomer _
  | .updateAddress _ | .deleteAddress _ => true
  | _ => false

/-- Result of running a handler: the response writer, the store it closes
over, the store calls it made, and whether it panicked (a Go runtime panic
such as a nil-pointer dereference aborts the handler at that point). -/
structure HResult (σ : Type) where
  w : ResponseWriter
  store : σ
  log : List StoreOp
  panicked : Bool
deriving DecidableEq

namespace Auth

/-- Embedding of `auth.AuthenticationMiddleware(endpointHandler, secretKey)`:
checks `r.Header["Token"]` for presence, verifies the token, extracts the
integer subject, and either short-circuits with a 401 error body or adds the
`Subject` header (`Header.Add` appends) and calls the endpoint handler. -/
def AuthenticationMiddleware {σ : Type}
    (endpointHandler : Request → ResponseWriter → σ → HResult σ)
    (secretKey : Secret) (now : Int)
    (r : Request) (w : ResponseWriter) (s : σ) : HResult σ :=
  match r.tokenHdr with
  | Option.none => ⟨w.fail 401 .missingToken, s, [], false⟩
  | some tokenString =>
    match VerifyJWT tokenString secretKey now with
    | .error e => ⟨w.fail 401 (.jwtInvalid e), s, [], false⟩
    | .ok token =>
      match getIDFromToken token with
      | .error e => ⟨w.fail 401 e, s, [], false⟩
      | .ok id =>
        endpointHandler { r with subjectHdr := r.subjectHdr ++ [goFormatInt id] } w s

end Auth

/-! The root package `bt_customer_svc` (`customer_server.go`). -/
namespace Svc

/-- The `CreateCustomerRequest` struct of `customer_server.go`; the
`UpdateCustomerRequest` struct has the same fields and the same validation
tags, so this type embeds both. A missing JSON field decodes to the Go zero
value `""`. -/
structure CreateCustomerRequest where
  FirstName : GoStr
  LastName : GoStr
  PhoneNumber : GoStr
  Email : GoStr
  Password : GoStr
deriving DecidableEq

/-- The `LoginCustomerRequest` struct of `customer_server.go`. -/
structure LoginCustomerRequest where
  Email : GoStr
  Password : GoStr
deriving DecidableEq

/-- The custom `phonenumber` govalidator rule registered in
`NewCustomerServer`: the regular expression `^\+[\d ]+$`, a `+` followed by
one or more digits and spaces. -/
def phonenumberValid (s : GoStr) : Bool :=
  match s with
  | '+' :: rest => !rest.isEmpty && rest.all (fun c => c.isDigit || c = ' ')
  | _ => false

/-- The govalidator `stringlength(min|max)` rule (inclusive bounds). -/
def stringLengthValid (min max : Nat) (s : GoStr) : Bool :=
  min ≤ s.length && s.length ≤ max

/-- Modelled from the spec: the govalidator `email` format matcher is an
external library regular expression; only presence of an `@` is modelled,
which is all the claims need. -/
def emailValid (s : GoStr) : Bool := s.any (fun c => c = '@')

/-- One field check: govalidator reports the `required` rule on an empty
value and the field's format or length rule otherwise. -/
def checkField (name : String) (value : GoStr) (rule : GoStr → Bool)
    (ruleErr : ValErr) : Except ValErr Unit :=
  if value = [] then .error (.requiredField name)
  else if rule value then .ok () else .error ruleErr

/-- Field validation of `CreateCustomerRequest`/`UpdateCustomerRequest` per
their struct tags, in field order. -/
def validateCustomerFields (q : CreateCustomerRequest) : Except ValErr Unit := do
  checkField "FirstName" q.FirstName (stringLengthValid 2 20) (.badLength "FirstName")
  checkField "LastName" q.LastName (stringLengthValid 2 20) (.badLength "LastName")
  checkField "PhoneNumber" q.PhoneNumber phonenumberValid (.badFormat "PhoneNumber")
  checkField "Email" q.Email emailValid (.badFormat "Email")
  checkField "Password" q.Password (stringLengthValid 2 72) (.badLength "Password")

/-- Field validation of `LoginCustomerRequest` per its struct tags. -/
def validateLoginFields (q : LoginCustomerRequest) : Except ValErr Unit := do
  checkField "Email" q.Email emailValid (.badFormat "Email")
  checkField "Password" q.Password (stringLengthValid 2 72) (.badLength "Password")

/-- JSON decoding of a customer-shaped body into `CreateCustomerRequest`
(missing fields become `""`). -/
def decodeCustomerFields (j : JsonFields) : CreateCustomerRequest :=
  ⟨j.firstName.getD [], j.lastName.getD [], j.phoneNumber.getD [],
    j.email.getD [], j.password.getD []⟩

/-- JSON decoding of a login-shaped body into `LoginCustomerRequest`. -/
def decodeLoginFields (j : JsonFields) : LoginCustomerRequest :=
  ⟨j.email.getD [], j.password.getD []⟩

/-- Modelled from the spec: the root package's `ValidateRequest(body, &v)`
helper is not under `src/`; per the spec it decodes the JSON body and then
runs the declarative field rules, failing without any store access. This is
its instance at `CreateCustomerRequest` (also used for
`UpdateCustomerRequest`, whose shape and tags are identical). -/
def validateRequestCustomer (b : Body) : Except ErrMsg CreateCustomerRequest :=
  match b with
  | .jsonFields j =>
    let q := decodeCustomerFields j
    match validateCustomerFields q with
    | .ok _ => .ok q
    | .error v => .error (.validationFailed v)
  | _ => .error (.validationFailed .malformedJson)

/-- Modelled from the spec: `ValidateRequest` at `LoginCustomerRequest`. -/
def validateRequestLogin (b : Body) : Except ErrMsg LoginCustomerRequest :=
  match b with
  | .jsonFields j =>
    let q := decodeLoginFields j
    match validateLoginFields q with
    | .ok _ => .ok q
    | .error v => .error (.validationFailed v)
  | _ => .error (.validationFailed .malformedJson)

/-- The store behind the `CustomerStore` interface, modelled as the list of
stored customers. -/
abbrev CustomerStore := List Customer

/-- `store.GetCustomerById`: `nil, err` becomes `Option.none`. -/
def getCustomerById (s : CustomerStore) (id : Int) : Option Customer :=
  s.find? (fun c => c.Id = id)

/-- `store.GetCustomerByEmail`. -/
def getCustomerByEmail (s : CustomerStore) (email : GoStr) : Option Customer :=
  s.find? (fun c => c.Email = email)

/-- The id the store assigns at creation (one more than the largest id). -/
def nextCustomerId (s : CustomerStore) : Int :=
  (s.map (fun c => c.Id)).foldr max 0 + 1

/-- `store.StoreCustomer`: assigns a fresh id and returns it. -/
def storeCustomerOp (s : CustomerStore) (c : Customer) : Int × CustomerStore :=
  let id := nextCustomerId s
  (id, s ++ [{ c with Id := id }])

/-- `store.UpdateCustomer`: replaces the record with the same id. -/
def updateCustomerOp (s : CustomerStore) (c : Customer) : CustomerStore :=
  s.map (fun x => if x.Id = c.Id then c else x)

/-- `store.DeleteCustomer`: `Option.none` models the not-found error. -/
def deleteCustomerOp (s : CustomerStore) (id : Int) : Option CustomerStore :=
  if s.any (fun c => c.Id = id) then some (s.filter (fun c => !(c.Id = id))) else Option.none

/-- The subject id a handler reads: `strconv.Atoi(r.Header["Subject"][0])`
with the error ignored, so an unparsable subject yields `0`; `Option.none`
models the index-out-of-range panic on a missing `Subject` header. -/
def subjectOf (r : Request) : Option Int :=
  r.subjectHdr.head?.map (fun s => (goAtoi s).getD 0)

/-- The root package's `generateJWT(secretKey, expiresAt, subject)` (the
version shipped with `customer_server.go`, which takes the absolute expiry
`time.Time` stored in the server). -/
def generateJWT (secretKey : Secret) (expiresAt : Int) (subject : Int) : JWTString :=
  .encoded (signToken .HS256 ⟨goFormatInt subject, some expiresAt⟩ secretKey)

/-- Embedding of `newGetCustomerResponse`: copies the four public fields. -/
def newGetCustomerResponse (customer : Customer) : GetCustomerResponse :=
  ⟨customer.FirstName, customer.LastName, customer.PhoneNumber, customer.Email⟩

/-- Embedding of `getCustomerFromCreateCustomerRequest`. -/
def getCustomerFromCreateCustomerRequest (q : CreateCustomerRequest) : Customer :=
  ⟨0, q.FirstName, q.LastName, q.PhoneNumber, q.Email, q.Password⟩

/-- Embedding of `CustomerServer.getCustomer` (GET `/customer/`). -/
def getCustomer (store : CustomerStore) (r : Request) (w : ResponseWriter) :
    HResult CustomerStore :=
  match subjectOf r with
  | Option.none => ⟨w, store, [], true⟩
  | some id =>
    match getCustomerById store id with
    | Option.none =>
      ⟨w.fail 404 .missingCustomer, store, [.getCustomerById id], false⟩
    | some customer =>
      ⟨w.encode (.customerBody (newGetCustomerResponse customer)), store,
        [.getCustomerById id], false⟩

/-- Embedding of `CustomerServer.updateCustomer` (PUT `/customer/`). The
source reads the store before validating (`customer, _ :=
c.store.GetCustomerById(id)` discards the error), and dereferences the
customer pointer after validation, which panics when the lookup failed. -/
def updateCustomer (store : CustomerStore) (r : Request) (w : ResponseWriter) :
    HResult CustomerStore :=
  match subjectOf r with
  | Option.none => ⟨w, store, [], true⟩
  | some id =>
    let customerOpt := getCustomerById store id
    let log := [StoreOp.getCustomerById id]
    match validateRequestCustomer r.body with
    | .error e => ⟨w.fail 400 e, store, log, false⟩
    | .ok q =>
      match customerOpt with
      | Option.none => ⟨w, store, log, true⟩
      | some customer =>
        let c := { customer with
          FirstName := q.FirstName
          LastName := q.LastName
          Email := q.Email
          PhoneNumber := q.PhoneNumber
          Password := q.Password }
        ⟨w, updateCustomerOp store c, log ++ [.updateCustomer c], false⟩

/-- Embedding of `CustomerServer.deleteCustomer` (DELETE `/customer/`). -/
def deleteCustomer (store : CustomerStore) (r : Request) (w : ResponseWriter) :
    HResult CustomerStore :=
  match subjectOf r with
  | Option.none => ⟨w, store, [], true⟩
  | some id =>
    match deleteCustomerOp store id with
    | Option.none =>
      ⟨w.fail 404 .missingCustomer, store, [.deleteCustomer id], false⟩
    | some storeAfter => ⟨w, storeAfter, [.deleteCustomer id], false⟩

/-- Embedding of `CustomerServer.storeCustomer` (POST `/customer/`): validate,
reject an existing email, store, then `WriteHeader(202)` followed by
`Header().Add("Token", jwt)` in exactly that order. -/
def storeCustomer (secretKey : Secret) (expiresAt : Int)
    (store : CustomerStore) (r : Request) (w : ResponseWriter) :
    HResult CustomerStore :=
  match validateRequestCustomer r.body with
  | .error e => ⟨w.fail 400 e, store, [], false⟩
  | .ok q =>
    match getCustomerByEmail store q.Email with
    | some _ =>
      ⟨w.fail 400 .existingUser, store, [.getCustomerByEmail q.Email], false⟩
    | Option.none =>
      let customer := getCustomerFromCreateCustomerRequest q
      let idAndStore := storeCustomerOp store customer
      let customerJWT := generateJWT secretKey expiresAt idAndStore.1
      ⟨(w.writeHeader 202).headerAdd "Token" customerJWT, idAndStore.2,
        [.getCustomerByEmail q.Email, .storeCustomer customer], false⟩

/-- Embedding of `CustomerServer.LoginHandler` (POST `/customer/login/`):
validate, load by email (missing gives 401 `ErrMissingCustomer`), compare the
password by equality, then `WriteHeader(202)` followed by
`Header().Add("Token", jwt)` in exactly that order. -/
def LoginHandler (secretKey : Secret) (expiresAt : Int)
    (store : CustomerStore) (r : Request) (w : ResponseWriter) :
    HResult CustomerStore :=
  match validateRequestLogin r.body with
  | .error e => ⟨w.fail 400 e, store, [], false⟩
  | .ok q =>
    match getCustomerByEmail store q.Email with
    | Option.none =>
      ⟨w.fail 401 .missingCustomer, store, [.getCustomerByEmail q.Email], false⟩
    | some customer =>
      if customer.Password ≠ q.Password then
        ⟨w.fail 401 .invalidCredentials, store, [.getCustomerByEmail q.Email], false⟩
      else
        let loginJWT := generateJWT secretKey expiresAt customer.Id
        ⟨(w.writeHeader 202).headerAdd "Token" loginJWT, store,
          [.getCustomerByEmail q.Email], false⟩

end Svc

/-! The `handlers/customer` package (`customer_types.go`). -/
namespace HandlersCustomer

/-- The `GetCustomerResponse` struct of `handlers/customer/customer_types.go`,
which declares an `Id` field. -/
structure GetCustomerResponse where
  Id : Int
  FirstName : GoStr
  LastName : GoStr
  PhoneNumber : GoStr
  Email : GoStr
deriving DecidableEq

/-- Embedding of `CustomerToGetCustomerResponse`: the Go composite literal
omits the `Id` field, which therefore keeps the zero value `0`. -/
def CustomerToGetCustomerResponse (customer : Customer) : GetCustomerResponse :=
  ⟨0, customer.FirstName, customer.LastName, customer.PhoneNumber, customer.Email⟩

end HandlersCustomer

/-! The `handlers/address` package. Its source file is not under `src/`; only
its unit tests are, so the handlers are modelled from the spec (sections 4.4
and 4.5) and checked against the expectations of
`tests/unit/address_test.go`. -/
namespace AddressH

/-- The store behind the `CustomerAddressStore` interface, modelled as the
list of stored addresses. -/
abbrev AddressStore := List Address

/-- `store.GetAddressById`; `Option.none` models the not-found error. -/
def getAddressById (s : AddressStore) (id : Int) : Option Address :=
  s.find? (fun a => a.Id = id)

/-- `store.UpdateAddress`: replaces the record with the same id. -/
def updateAddressOp (s : AddressStore) (a : Address) : AddressStore :=
  s.map (fun x => if x.Id = a.Id then a else x)

/-- `store.DeleteAddress`: removes the record with the given id. -/
def deleteAddressOp (s : AddressStore) (id : Int) : AddressStore :=
  s.filter (fun a => !(a.Id = id))

/-- Modelled from the spec: the Ownership Authorizer (section 4.4).
Authorized iff the authenticated subject id equals the target resource's
owning customer id; every other pairing is an `UnauthorizedAction` error. -/
def authorizeOwnership (subjectId resourceOwnerId : Int) : Except ErrMsg Unit :=
  if subjectId = resourceOwnerId then .ok () else .error .unauthorizedAction

/-- Modelled from the spec: request validation of an address payload
(required-ness of the address fields; the tests reject the zero
`models.Address`). -/
def validAddressBody (a : Address) : Bool := !a.City.isEmpty

/-- Modelled from the spec: the `updateAddress` handler (PUT
`/customer/address/`), following the pipeline of section 4.5: decode and
validate the payload, load the authenticated subject's customer record
(missing gives 404 `ErrMissingCustomer`), load the target address by the id
in the body (missing gives 404 `ErrMissingAddress`), run the Ownership
Authorizer against the stored address's owner (failure gives 401
`ErrUnathorizedAction` and no store mutation), then update the store. -/
def updateAddress (custStore : Svc.CustomerStore)
    (r : Request) (w : ResponseWriter) (addrStore : AddressStore) :
    HResult AddressStore :=
  match Svc.subjectOf r with
  | Option.none => ⟨w, addrStore, [], true⟩
  | some sid =>
    match r.body with
    | .addressJson a =>
      if !validAddressBody a then ⟨w.fail 400 .invalidRequestField, addrStore, [], false⟩
      else
        match Svc.getCustomerById custStore sid with
        | Option.none =>
          ⟨w.fail 404 .missingCustomer, addrStore, [.getCustomerById sid], false⟩
        | some _ =>
          match getAddressById addrStore a.Id with
          | Option.none =>
            ⟨w.fail 404 .missingAddress, addrStore,
              [.getCustomerById sid, .getAddressById a.Id], false⟩
          | some target =>
            match authorizeOwnership sid target.CustomerId with
            | .error e =>
              ⟨w.fail 401 e, addrStore,
                [.getCustomerById sid, .getAddressById a.Id], false⟩
            | .ok _ =>
              ⟨w, updateAddressOp addrStore a,
                [.getCustomerById sid, .getAddressById a.Id, .updateAddress a], false⟩
    | _ => ⟨w.fail 400 .invalidRequestField, addrStore, [], false⟩

/-- Modelled from the spec: the `deleteAddress` handler (DELETE
`/customer/address/`), with the same pipeline as `updateAddress` over the
address id carried in the request. -/
def deleteAddress (custStore : Svc.CustomerStore)
    (r : Request) (w : ResponseWriter) (addrStore : AddressStore) :
    HResult AddressStore :=
  match Svc.subjectOf r with
  | Option.none => ⟨w, addrStore, [], true⟩
  | some sid =>
    match r.body with
    | .addressId aid =>
      match Svc.getCustomerById custStore sid with
      | Option.none =>
        ⟨w.fail 404 .missingCustomer, addrStore, [.getCustomerById sid], false⟩
      | some _ =>
        match getAddressById addrStore aid with
        | Option.none =>
          ⟨w.fail 404 .missingAddress, addrStore,
            [.getCustomerById sid, .getAddressById aid], false⟩
        | some target =>
          match authorizeOwnership sid target.CustomerId with
          | .error e =>
            ⟨w.fail 401 e, addrStore,
              [.getCustomerById sid, .getAddressById aid], false⟩
          | .ok _ =>
            ⟨w, deleteAddressOp addrStore aid,
              [.getCustomerById sid, .getAddressById aid, .deleteAddress aid], false⟩
    | _ => ⟨w.fail 400 .invalidRequestField, addrStore, [], false⟩

end AddressH

namespace Auth

/-- The Authentication Gate's decision procedure exactly as the spec states
it (section 4.2): no token present fails `MissingToken`; a verification
failure fails `InvalidToken` propagating the underlying error; an absent or
empty subject fails `MissingSubject`; a subject that is not an integer fails
`NonIntegerSubject`; otherwise the parsed subject id is produced. Stated for
comparison with `AuthenticationMiddleware`, which is embedded from the
source. -/
def gateDecisionSpec (secretKey : Secret) (now : Int) (r : Request) :
    Except ErrMsg Int :=
  match r.tokenHdr with
  | Option.none => .error .missingToken
  | some tokenString =>
    match VerifyJWT tokenString secretKey now with
    | .error e => .error (.jwtInvalid e)
    | .ok token =>
      if token.claims.subject = [] then .error .missingSubject
      else
        match goAtoi token.claims.subject with
        | Option.none => .error .nonIntegerSubject
        | some id => .ok id

end Auth

/-! Concrete fixtures (the test data of `tests/testdata`, used by the
counterexample and witness theorems). -/

/-- Peter's customer record (id 1). -/
def peterCustomer : Customer :=
  ⟨1, "Peter".data, "Smith".data, "+359 88 576 5981".data,
    "petesmith@gmail.com".data, "firefirefire".data⟩

/-- Alice's customer record (id 2). -/
def aliceCustomer : Customer :=
  ⟨2, "Alice".data, "Johnson".data, "+359 88 444 2222".data,
    "alicejohn@gmail.com".data, "helloJohn123".data⟩

/-- Peter's address (id 1, owned by customer 1). -/
def peterAddress : Address := ⟨1, 1, "Sofia".data⟩

/-- A create/update customer body that passes validation. -/
def validCustomerBody : Body :=
  .jsonFields ⟨some "Peter".data, some "Smith".data, some "+359 88 576 5981".data,
    some "petesmith@gmail.com".data, some "firefirefire".data⟩

/-- A create/update customer body whose phone number `"abc"` fails the
`phonenumber` format rule. -/
def phoneAbcBody : Body :=
  .jsonFields ⟨some "Peter".data, some "Smith".data, some "abc".data,
    some "petesmith@gmail.com".data, some "firefirefire".data⟩

/-- A login body with Peter's credentials. -/
def loginPeterBody : Body :=
  .jsonFields ⟨Option.none, Option.none, Option.none,
    some "petesmith@gmail.com".data, some "firefirefire".data⟩

/-! Library lemmas about the strconv model. -/

theorem natDigitsRevAux_sound (fuel : Nat) :
    ∀ n, n ≤ fuel → digitsVal (natDigitsRevAux fuel n) = n := by
  induction fuel with
  | zero =>
    intro n hn
    interval_cases n
    rfl
  | succ fuel ih =>
    intro n hn
    by_cases h0 : n = 0
    · subst h0; rfl
    · have hdiv : n / 10 ≤ fuel := by
        have : n / 10 < n := Nat.div_lt_self (Nat.pos_of_ne_zero h0) (by omega)
        omega
      simp only [natDigitsRevAux, h0, if_false, digitsVal, List.foldr]
      have := ih (n / 10) hdiv
      simp only [digitsVal] at this
      rw [this]
      omega

theorem natDigitsRevAux_lt_ten (fuel : Nat) :
    ∀ n d, d ∈ natDigitsRevAux fuel n → d < 10 := by
  induction fuel with
  | zero => intro n d hd; simp [natDigitsRevAux] at hd
  | succ fuel ih =>
    intro n d hd
    by_cases h0 : n = 0
    · subst h0; simp [natDigitsRevAux] at hd
    · simp only [natDigitsRevAux, h0, if_false, List.mem_cons] at hd
      rcases hd with h | h
      · subst h; exact Nat.mod_lt _ (by omega)
      · exact ih _ _ h

theorem digitChar_toNat (d : Nat) (hd : d < 10) : (digitChar d).toNat = d + 48 := by
  interval_cases d <;> decide

theorem digitChar_isDigit (d : Nat) (hd : d < 10) : (digitChar d).isDigit = true := by
  interval_cases d <;> decide

theorem digitChar_ne_dash (d : Nat) (hd : d < 10) : digitChar d ≠ '-' := by
  interval_cases d <;> decide

theorem digitChar_ne_plus (d : Nat) (hd : d < 10) : digitChar d ≠ '+' := by
  interval_cases d <;> decide

theorem foldl_digitChars (ds : List Nat) (hds : ∀ d ∈ ds, d < 10) (a0 : Nat) :
    (ds.reverse.map digitChar).foldl (fun a c => a * 10 + (c.toNat - 48)) a0
      = a0 * 10 ^ ds.length + digitsVal ds := by
  induction ds generalizing a0 with
  | nil => simp [digitsVal]
  | cons d t ih =>
    have hd : d < 10 := hds d (List.mem_cons_self d t)
    have ht : ∀ x ∈ t, x < 10 := fun x hx => hds x (List.mem_cons_of_mem d hx)
    simp only [List.reverse_cons, List.map_append, List.map_cons, List.map_nil,
      List.foldl_append, List.foldl_cons, List.foldl_nil]
    rw [ih ht a0, digitChar_toNat d hd]
    simp only [digitsVal, List.foldr_cons, List.length_cons]
    ring_nf
    omega

theorem goParseNat_goFormatNat (n : Nat) : goParseNat (goFormatNat n) = some n := by
  by_cases h0 : n = 0
  · subst h0; rfl
  · have hne : natDigitsRev n ≠ [] := by
      unfold natDigitsRev
      cases n with
      | zero => exact absurd rfl h0
      | succ m => simp [natDigitsRevAux]
    have hlt : ∀ d ∈ natDigitsRev n, d < 10 := fun d hd =>
      natDigitsRevAux_lt_ten n n d hd
    have hval : digitsVal (natDigitsRev n) = n := natDigitsRevAux_sound n n le_rfl
    have hchars_ne : (natDigitsRev n).reverse.map digitChar ≠ [] := by
      simpa using hne
    have hdig : ((natDigitsRev n).reverse.map digitChar).all Char.isDigit = true := by
      simp only [List.all_eq_true]
      intro c hc
      obtain ⟨d, hd, rfl⟩ := List.mem_map.mp hc
      exact digitChar_isDigit d (hlt d (List.mem_reverse.mp hd))
    unfold goFormatNat goParseNat
    simp only [h0, if_false, hchars_ne, hdig, if_true]
    rw [foldl_digitChars (natDigitsRev n) hlt 0]
    simp [hval]

theorem goFormatNat_head_digit (n : Nat) :
    ∃ c rest, goFormatNat n = c :: rest ∧ c ≠ '-' ∧ c ≠ '+' := by
  by_cases h0 : n = 0
  · subst h0; exact ⟨'0', [], rfl, by decide, by decide⟩
  · have hne : natDigitsRev n ≠ [] := by
      unfold natDigitsRev
      cases n with
      | zero => exact absurd rfl h0
      | succ m => simp [natDigitsRevAux]
    obtain ⟨d, ds, hds⟩ := List.exists_cons_of_ne_nil (by simpa using hne :
      (natDigitsRev n).reverse ≠ [])
    have hd10 : d < 10 := by
      have : d ∈ (natDigitsRev n).reverse := by rw [hds]; exact List.mem_cons_self d ds
      exact natDigitsRevAux_lt_ten n n d (List.mem_reverse.mp this)
    refine ⟨digitChar d, ds.map digitChar, ?_, digitChar_ne_dash d hd10,
      digitChar_ne_plus d hd10⟩
    unfold goFormatNat
    simp [h0, hds]

/-- Round trip of the `strconv` model: parsing a formatted integer gives it back. -/
theorem goAtoi_goFormatInt (i : Int) : goAtoi (goFormatInt i) = some i := by
  cases i with
  | ofNat n =>
    obtain ⟨c, rest, heq, hdash, hplus⟩ := goFormatNat_head_digit n
    show goAtoi (goFormatNat n) = some (Int.ofNat n)
    rw [heq]
    unfold goAtoi
    simp only [hdash, hplus, if_false, ← heq, goParseNat_goFormatNat, Option.map_some]
    simp
  | negSucc m =>
    show goAtoi ('-' :: goFormatNat (m + 1)) = some (Int.negSucc m)
    unfold goAtoi
    simp only [if_pos rfl, goParseNat_goFormatNat, Option.map_some]
    rw [Int.negSucc_eq]
    simp

/-- A formatted integer is never the empty string. -/
theorem goFormatInt_ne_nil (i : Int) : goFormatInt i ≠ [] := by
  cases i with
  | ofNat n =>
    obtain ⟨c, rest, heq, _, _⟩ := goFormatNat_head_digit n
    show goFormatNat n ≠ []
    rw [heq]
    exact List.cons_ne_nil c rest
  | negSucc m => exact List.cons_ne_nil _ _

/-- Unfolding lemma for `jwtParse` on a well-formed token. -/
theorem jwtParse_encoded (t : Token) (key : Secret) (validMethods : List Alg)
    (now : Int) :
    jwtParse (.encoded t) key validMethods now =
      if t.alg ∉ validMethods then .error .invalidSigningMethod
      else if t.sig ≠ (⟨key, t.alg, t.claims⟩ : MacSig) then .error .signatureInvalid
      else
        match t.claims.expiresAt with
        | Option.none => .ok t
        | some exp => if now < exp then .ok t else .error .expired := rfl

/-! Claim theorems. -/

/-- C2: for every secret, integer subject id and strictly-future expiry,
verifying a token produced by `GenerateJWT` with the same secret succeeds
and `getIDFromToken` yields exactly the subject id that was issued. The
token is issued at `now` with duration `expiresAt` and verified at any time
`tv` strictly before the expiry `now + expiresAt`. -/
theorem generateJWT_verifyJWT_roundtrip (secretKey : Secret) (subject : Int)
    (expiresAt now tv : Int) (hfuture : tv < now + expiresAt) :
    ∃ token,
      Auth.VerifyJWT (Auth.GenerateJWT secretKey expiresAt subject now) secretKey tv
        = .ok token
      ∧ Auth.getIDFromToken token = .ok subject := by
  refine ⟨signToken .HS256 ⟨goFormatInt subject, some (now + expiresAt)⟩ secretKey, ?_, ?_⟩
  · unfold Auth.GenerateJWT Auth.VerifyJWT jwtParse signToken
    simp [hfuture]
  · unfold Auth.getIDFromToken signToken
    simp [goFormatInt_ne_nil subject, goAtoi_goFormatInt subject]

/-- Witness for C2 at secret `[5]`, subject `7`, duration `60`, issued at
`100`, verified at `120`. -/
theorem generateJWT_verifyJWT_roundtrip_witness :
    ∃ token,
      Auth.VerifyJWT (Auth.GenerateJWT [5] 60 7 100) [5] 120 = .ok token
      ∧ Auth.getIDFromToken token = .ok 7 :=
  generateJWT_verifyJWT_roundtrip [5] 7 60 100 120 (by decide)

/-- C4: verification fails for a token signed with a different secret than
the verification secret, and for a token whose algorithm is anything other
than HS256 (including `none`), however well-formed the rest of the token is. -/
theorem verifyJWT_rejects_wrong_secret_and_method (t : Token) (secretKey : Secret)
    (now : Int) :
    (t.sig.key ≠ secretKey → ∃ e, Auth.VerifyJWT (.encoded t) secretKey now = .error e)
    ∧ (t.alg ≠ .HS256 → ∃ e, Auth.VerifyJWT (.encoded t) secretKey now = .error e) := by
  constructor
  · intro hkey
    unfold Auth.VerifyJWT
    rw [jwtParse_encoded]
    by_cases halg : t.alg ∈ [Alg.HS256]
    · have hsig : t.sig ≠ (⟨secretKey, t.alg, t.claims⟩ : MacSig) := by
        intro h
        exact hkey (congrArg MacSig.key h)
      exact ⟨.signatureInvalid, by rw [if_neg (not_not_intro halg), if_pos hsig]⟩
    · exact ⟨.invalidSigningMethod, by rw [if_pos halg]⟩
  · intro halg
    have hmem : t.alg ∉ [Alg.HS256] := by simp [halg]
    exact ⟨.invalidSigningMethod, by
      unfold Auth.VerifyJWT
      rw [jwtParse_encoded, if_pos hmem]⟩

/-- Witness for C4: a token over the `none` algorithm signed with key `[9]`,
verified against secret `[5]`, is rejected on both grounds. -/
theorem verifyJWT_rejects_wrong_secret_and_method_witness :
    (∃ e, Auth.VerifyJWT
      (.encoded ⟨.none, ⟨['1'], some 100⟩, ⟨[9], .none, ⟨['1'], some 100⟩⟩⟩) [5] 0
        = .error e)
    ∧ (∃ e, Auth.VerifyJWT
      (.encoded ⟨.none, ⟨['1'], some 100⟩, ⟨[9], .none, ⟨['1'], some 100⟩⟩⟩) [5] 0
        = .error e) :=
  ⟨(verifyJWT_rejects_wrong_secret_and_method
      ⟨.none, ⟨['1'], some 100⟩, ⟨[9], .none, ⟨['1'], some 100⟩⟩⟩ [5] 0).1 (by decide),
   (verifyJWT_rejects_wrong_secret_and_method
      ⟨.none, ⟨['1'], some 100⟩, ⟨[9], .none, ⟨['1'], some 100⟩⟩⟩ [5] 0).2 (by decide)⟩

/-- C5: a correctly signed token whose `ExpiresAt` is less than or equal to
the verification time fails with the expiry error; in particular an
`ExpiresAt` exactly equal to `now` counts as expired. -/
theorem verifyJWT_rejects_expired (secretKey : Secret) (claims : RegisteredClaims)
    (e now : Int) (hexp : claims.expiresAt = some e) (hpast : e ≤ now) :
    Auth.VerifyJWT (.encoded (signToken .HS256 claims secretKey)) secretKey now
      = .error .expired := by
  unfold Auth.VerifyJWT jwtParse signToken
  simp [hexp]
  omega

/-- Witness for C5 at the boundary: expiry `5` verified at time `5`. -/
theorem verifyJWT_rejects_expired_witness :
    Auth.VerifyJWT (.encoded (signToken .HS256 ⟨['1'], some 5⟩ [3])) [3] 5
      = .error .expired :=
  verifyJWT_rejects_expired [3] ⟨['1'], some 5⟩ 5 5 rfl (by decide)

/-- Unfolding lemma for `AuthenticationMiddleware` on a present token. -/
theorem authenticationMiddleware_some_token {σ : Type}
    (endpointHandler : Request → ResponseWriter → σ → HResult σ)
    (secretKey : Secret) (now : Int) (ts : JWTString) (shdr : List GoStr)
    (bd : Body) (w : ResponseWriter) (s : σ) :
    Auth.AuthenticationMiddleware endpointHandler secretKey now ⟨some ts, shdr, bd⟩ w s =
      match Auth.VerifyJWT ts secretKey now with
      | .error e => ⟨w.fail 401 (.jwtInvalid e), s, [], false⟩
      | .ok token =>
        match Auth.getIDFromToken token with
        | .error e => ⟨w.fail 401 e, s, [], false⟩
        | .ok id => endpointHandler ⟨some ts, shdr ++ [goFormatInt id], bd⟩ w s := rfl

/-- Unfolding lemma for `gateDecisionSpec` on a present token. -/
theorem gateDecisionSpec_some_token (secretKey : Secret) (now : Int)
    (ts : JWTString) (shdr : List GoStr) (bd : Body) :
    Auth.gateDecisionSpec secretKey now ⟨some ts, shdr, bd⟩ =
      match Auth.VerifyJWT ts secretKey now with
      | .error e => .error (.jwtInvalid e)
      | .ok token =>
        if token.claims.subject = [] then .error .missingSubject
        else
          match goAtoi token.claims.subject with
          | Option.none => .error .nonIntegerSubject
          | some id => .ok id := rfl

/-- C3: the Authentication Gate short-circuits with a 401 error body, never
invoking the downstream handler, in exactly the four failure cases of the
spec (missing token, token verification failure with the underlying error
propagated, absent or empty subject, non-integer subject), and otherwise
appends the parsed subject id to the request's `Subject` header and invokes
the downstream handler: `AuthenticationMiddleware` equals the case split of
`gateDecisionSpec` for every downstream handler, request, writer and store. -/
theorem authenticationMiddleware_gate_cases {σ : Type}
    (endpointHandler : Request → ResponseWriter → σ → HResult σ)
    (secretKey : Secret) (now : Int) (r : Request) (w : ResponseWriter) (s : σ) :
    Auth.AuthenticationMiddleware endpointHandler secretKey now r w s =
      match Auth.gateDecisionSpec secretKey now r with
      | .error m => ⟨w.fail 401 m, s, [], false⟩
      | .ok id =>
        endpointHandler { r with subjectHdr := r.subjectHdr ++ [goFormatInt id] } w s := by
  obtain ⟨tok, shdr, bd⟩ := r
  cases tok with
  | none => rfl
  | some ts =>
    rw [authenticationMiddleware_some_token, gateDecisionSpec_some_token]
    cases hv : Auth.VerifyJWT ts secretKey now with
    | error e => rfl
    | ok token =>
      unfold Auth.getIDFromToken
      by_cases hs : token.claims.subject = []
      · simp only [hs, if_true, if_pos]
      · simp only [hs, if_false]

/-- C1: the Ownership Authorizer authorizes exactly when the authenticated
subject id equals the resource owner's customer id, and every other pairing
is an `UnauthorizedAction` failure; on an address update or delete whose
target is owned by a different customer the handler responds 401
`UnauthorizedAction` and the address store is unchanged. -/
theorem ownership_authorizer_exact (sid : Int) (custStore : Svc.CustomerStore)
    (addrStore : AddressH.AddressStore) (cust : Customer) (a target : Address)
    (tok : Option JWTString) (w : ResponseWriter)
    (hcust : Svc.getCustomerById custStore sid = some cust)
    (htarget : AddressH.getAddressById addrStore a.Id = some target)
    (hval : AddressH.validAddressBody a = true)
    (hne : sid ≠ target.CustomerId) :
    (∀ oid : Int, AddressH.authorizeOwnership sid oid = .ok () ↔ sid = oid)
    ∧ (∀ oid : Int, sid ≠ oid →
        AddressH.authorizeOwnership sid oid = .error .unauthorizedAction)
    ∧ AddressH.updateAddress custStore ⟨tok, [goFormatInt sid], .addressJson a⟩ w addrStore
      = ⟨w.fail 401 .unauthorizedAction, addrStore,
          [.getCustomerById sid, .getAddressById a.Id], false⟩
    ∧ AddressH.deleteAddress custStore ⟨tok, [goFormatInt sid], .addressId a.Id⟩ w addrStore
      = ⟨w.fail 401 .unauthorizedAction, addrStore,
          [.getCustomerById sid, .getAddressById a.Id], false⟩ := by
  have hsubj : ∀ b, Svc.subjectOf ⟨tok, [goFormatInt sid], b⟩ = some sid := by
    intro b
    unfold Svc.subjectOf
    simp [goAtoi_goFormatInt sid]
  have hauth : AddressH.authorizeOwnership sid target.CustomerId
      = .error .unauthorizedAction := by
    unfold AddressH.authorizeOwnership
    rw [if_neg hne]
  refine ⟨?_, ?_, ?_, ?_⟩
  · intro oid
    unfold AddressH.authorizeOwnership
    by_cases h : sid = oid
    · simp [h]
    · simp [h]
  · intro oid hno
    unfold AddressH.authorizeOwnership
    rw [if_neg hno]
  · unfold AddressH.updateAddress
    rw [hsubj]
    simp only [hval, Bool.not_true, Bool.false_eq_true, if_false, hcust, htarget, hauth]
  · unfold AddressH.deleteAddress
    rw [hsubj]
    simp only [hcust, htarget, hauth]

/-- Witness for C1: Alice (subject id 2) against Peter's address (owned by
customer 1), with both customers and the address present in the stores. -/
theorem ownership_authorizer_exact_witness :
    (∀ oid : Int, AddressH.authorizeOwnership 2 oid = .ok () ↔ 2 = oid)
    ∧ (∀ oid : Int, (2 : Int) ≠ oid →
        AddressH.authorizeOwnership 2 oid = .error .unauthorizedAction)
    ∧ AddressH.updateAddress [peterCustomer, aliceCustomer]
        ⟨Option.none, [goFormatInt 2], .addressJson peterAddress⟩
        ResponseWriter.init [peterAddress]
      = ⟨ResponseWriter.init.fail 401 .unauthorizedAction, [peterAddress],
          [.getCustomerById 2, .getAddressById peterAddress.Id], false⟩
    ∧ AddressH.deleteAddress [peterCustomer, aliceCustomer]
        ⟨Option.none, [goFormatInt 2], .addressId peterAddress.Id⟩
        ResponseWriter.init [peterAddress]
      = ⟨ResponseWriter.init.fail 401 .unauthorizedAction, [peterAddress],
          [.getCustomerById 2, .getAddressById peterAddress.Id], false⟩ :=
  ownership_authorizer_exact 2 [peterCustomer, aliceCustomer] [peterAddress]
    aliceCustomer peterAddress peterAddress Option.none ResponseWriter.init
    (by decide) (by decide) (by decide) (by decide)

/-- C6 counterexample: a PUT `/customer/` request whose payload fails
validation (phone number `"abc"`) nonetheless performs a store access: the
handler calls `GetCustomerById` before validating, so the claim that no
store access at all occurs on a validation-rejected update request is false. -/
theorem updateCustomer_reads_store_despite_invalid_payload :
    Svc.validateRequestCustomer phoneAbcBody
      = .error (.validationFailed (.badFormat "PhoneNumber"))
    ∧ (Svc.updateCustomer [peterCustomer]
        ⟨Option.none, [['1']], phoneAbcBody⟩ ResponseWriter.init).log
      = [.getCustomerById 1] := by decide

/-- C6 (amended): a request rejected by validation causes no store write and
leaves the store unchanged; on POST `/customer/` validation precedes any
store access at all, while PUT `/customer/` performs one store read
(`GetCustomerById`) before validation but still no write. -/
theorem validation_rejection_no_store_write (secretKey : Secret) (expiresAt : Int)
    (store : Svc.CustomerStore) (r : Request) (w : ResponseWriter) (e : ErrMsg)
    (hval : Svc.validateRequestCustomer r.body = .error e) :
    Svc.storeCustomer secretKey expiresAt store r w = ⟨w.fail 400 e, store, [], false⟩
    ∧ (Svc.updateCustomer store r w).store = store
    ∧ ∀ op ∈ (Svc.updateCustomer store r w).log, op.isWrite = false := by
  refine ⟨?_, ?_, ?_⟩
  · unfold Svc.storeCustomer
    rw [hval]
  · unfold Svc.updateCustomer
    cases Svc.subjectOf r with
    | none => rfl
    | some id => rw [hval]
  · unfold Svc.updateCustomer
    cases Svc.subjectOf r with
    | none => intro op hop; simp at hop
    | some id =>
      rw [hval]
      intro op hop
      simp only [List.mem_singleton] at hop
      subst hop
      rfl

/-- Witness for C6 (amended) at the `"abc"` phone-number request against a
store holding Peter's record. -/
theorem validation_rejection_no_store_write_witness :
    Svc.storeCustomer [7] 1000 [peterCustomer]
        ⟨Option.none, [['1']], phoneAbcBody⟩ ResponseWriter.init
      = ⟨ResponseWriter.init.fail 400 (.validationFailed (.badFormat "PhoneNumber")),
          [peterCustomer], [], false⟩
    ∧ (Svc.updateCustomer [peterCustomer]
        ⟨Option.none, [['1']], phoneAbcBody⟩ ResponseWriter.init).store
      = [peterCustomer]
    ∧ ∀ op ∈ (Svc.updateCustomer [peterCustomer]
        ⟨Option.none, [['1']], phoneAbcBody⟩ ResponseWriter.init).log,
        op.isWrite = false :=
  validation_rejection_no_store_write [7] 1000 [peterCustomer]
    ⟨Option.none, [['1']], phoneAbcBody⟩ ResponseWriter.init
    (.validationFailed (.badFormat "PhoneNumber")) (by decide)

/-- C7: an authenticated PUT `/customer/` whose subject id (here 5) has no
customer record does not fail `NotFound`: the handler discards the
`GetCustomerById` error and dereferences the nil customer pointer, so it
panics after validation with no status written, whereas GET and DELETE
respond 404 with the missing-customer error as the claim states. -/
theorem updateCustomer_nil_dereference_on_missing_customer :
    (Svc.updateCustomer [] ⟨Option.none, [['5']], validCustomerBody⟩
        ResponseWriter.init).panicked = true
    ∧ (Svc.updateCustomer [] ⟨Option.none, [['5']], validCustomerBody⟩
        ResponseWriter.init).w.sentStatus = Option.none
    ∧ (Svc.getCustomer [] ⟨Option.none, [['5']], validCustomerBody⟩
        ResponseWriter.init).w = ResponseWriter.init.fail 404 .missingCustomer
    ∧ (Svc.deleteCustomer [] ⟨Option.none, [['5']], validCustomerBody⟩
        ResponseWriter.init).w = ResponseWriter.init.fail 404 .missingCustomer := by
  decide

/-- C8: on a successful POST `/customer/` and a successful POST
`/customer/login/` the status is 202, but the `Token` header is added to the
header map only after `WriteHeader(202)` has frozen the sent headers, so the
response the client receives carries no `Token` header at all. -/
theorem token_header_absent_from_sent_response :
    ((Svc.storeCustomer [7] 1000 [] ⟨Option.none, [], validCustomerBody⟩
        ResponseWriter.init).w.finalize.sentStatus = some 202
    ∧ (Svc.storeCustomer [7] 1000 [] ⟨Option.none, [], validCustomerBody⟩
        ResponseWriter.init).w.finalize.sentHeader = []
    ∧ (Svc.storeCustomer [7] 1000 [] ⟨Option.none, [], validCustomerBody⟩
        ResponseWriter.init).w.headerMap = [("Token", Svc.generateJWT [7] 1000 1)])
    ∧ ((Svc.LoginHandler [7] 1000 [peterCustomer] ⟨Option.none, [], loginPeterBody⟩
        ResponseWriter.init).w.finalize.sentStatus = some 202
    ∧ (Svc.LoginHandler [7] 1000 [peterCustomer] ⟨Option.none, [], loginPeterBody⟩
        ResponseWriter.init).w.finalize.sentHeader = []
    ∧ (Svc.LoginHandler [7] 1000 [peterCustomer] ⟨Option.none, [], loginPeterBody⟩
        ResponseWriter.init).w.headerMap = [("Token", Svc.generateJWT [7] 1000 1)]) := by
  decide

/-- C9: the body of a GET `/customer/` response is independent of the stored
password: the conversions never copy the `Password` field, and the handler
produces identical responses over two stores whose target records differ
only in their password. -/
theorem getCustomer_response_password_independent (c : Customer) (p1 p2 : GoStr)
    (r : Request) (w : ResponseWriter) :
    Svc.newGetCustomerResponse { c with Password := p1 }
      = Svc.newGetCustomerResponse { c with Password := p2 }
    ∧ HandlersCustomer.CustomerToGetCustomerResponse { c with Password := p1 }
      = HandlersCustomer.CustomerToGetCustomerResponse { c with Password := p2 }
    ∧ (Svc.getCustomer [{ c with Password := p1 }] r w).w
      = (Svc.getCustomer [{ c with Password := p2 }] r w).w := by
  refine ⟨rfl, rfl, ?_⟩
  unfold Svc.getCustomer
  cases hs : Svc.subjectOf r with
  | none => rfl
  | some id =>
    unfold Svc.getCustomerById
    by_cases h : c.Id = id
    · simp [List.find?, h, Svc.newGetCustomerResponse]
    · simp [List.find?, h]

/-- C10: the `GetCustomerResponse` built by `CustomerToGetCustomerResponse`
has `Id = 0` for every customer: the conversion never populates the declared
`Id` field, so it keeps the Go zero value. -/
theorem customerToGetCustomerResponse_id_zero (c : Customer) :
    (HandlersCustomer.CustomerToGetCustomerResponse c).Id = 0 := rfl

end BtCustomerSvc
